import Mathlib

/-!
Shallow embedding of the admission-time decision core of the
k8s-governance-operator repository (internal/webhook/v1/pod_webhook.go):
the validating webhook `ValidateCreate`, the mutating webhook `Default`
(Auto-Sizer), and the usage aggregator `calculateCurrentUsage`, together
with theorems checking the natural-language specification against them.
-/

namespace PodWebhook

/-- Lifecycle phase of a pod (the corev1.PodPhase values the webhook tests). -/
inductive PodPhase where
  | Pending
  | Running
  | Succeeded
  | Failed
  | Unknown
deriving DecidableEq, Repr

/-- One container of a pod. The webhook reads `Resources.Limits.Cpu()` in
millicores and `Resources.Limits.Memory()` in bytes; a container without a
declared limit contributes 0 (in Go the accessor returns the zero quantity). -/
structure Container where
  cpuLimitMilli : Option Int
  memLimitBytes : Option Int
deriving DecidableEq, Repr

/-- A pod as the webhook sees it: metadata name, its namespace, its
annotation map (modelled as an association list; Go map reads of a missing
key yield the empty string), its containers and its lifecycle phase. -/
structure Pod where
  name : String
  ns : String
  annotations : List (String × String)
  containers : List Container
  phase : PodPhase
deriving DecidableEq, Repr

/-- Structure `ProjectBudgetSpec` from api/v1. The `teamName`, `maxCpuLimit` and
`maxMemoryLimit` fields are in the sources; the `validationMode` field is
modelled from the spec (enum `Enforce` | `DryRun`), since the api/v1 types
file declaring it is not among the sources, only its use in the webhook. -/
structure ProjectBudgetSpec where
  teamName : String
  maxCpuLimit : String
  maxMemoryLimit : String
  validationMode : String
deriving DecidableEq, Repr

/-- A `ProjectBudget` object: its metadata name and its spec. -/
structure ProjectBudget where
  name : String
  spec : ProjectBudgetSpec
deriving DecidableEq, Repr

/-- Modelled from the spec: the `DryRun` value of the `validationMode`
enum (`finopsv1.DryRunMode`); its declaring file is not in the sources. -/
def DryRunMode : String := "DryRun"

/-- Modelled from the spec: the `Enforce` value of the `validationMode`
enum; its declaring file is not in the sources. -/
def EnforceMode : String := "Enforce"

/-- A parsed resource quantity, carrying its value in milli-units
(model of k8s.io/apimachinery resource.Quantity as used here). -/
structure Quantity where
  milli : Int
deriving DecidableEq, Repr

/-- Model of `Quantity.MilliValue()`: the value in milli-units. -/
def Quantity.MilliValue (q : Quantity) : Int := q.milli

/-- Model of `Quantity.Value()`: the value rounded up to the nearest whole unit
(the quantities produced here are non-negative). -/
def Quantity.Value (q : Quantity) : Int := (q.milli + 999) / 1000

/-- Interpret a decimal digit string. -/
def digitsToNat (cs : List Char) : Nat :=
  cs.foldl (fun a c => a * 10 + (c.toNat - 48)) 0

/-- Milli-scale of a quantity suffix: none for an unrecognized suffix. -/
def suffixScale (s : String) : Option Int :=
  if s = "" then some 1000
  else if s = "m" then some 1
  else if s = "k" then some 1000000
  else if s = "M" then some 1000000000
  else if s = "G" then some 1000000000000
  else if s = "Ki" then some 1024000
  else if s = "Mi" then some 1048576000
  else if s = "Gi" then some 1073741824000
  else none

/-- Model of the external library collaborator `resource.ParseQuantity`,
restricted to the integer grammar relevant here: a non-empty decimal digit
string followed by an optional unit suffix. `none` models a parse error
(in Go the function then returns the zero quantity together with the error). -/
def ParseQuantity (s : String) : Option Quantity :=
  let digits := s.toList.takeWhile Char.isDigit
  let suffix := s.toList.dropWhile Char.isDigit
  if digits.isEmpty then none
  else
    (suffixScale (String.mk suffix)).map
      (fun sc => ⟨(Int.ofNat (digitsToNat digits)) * sc⟩)

/-- Read an annotation the way a Go map read does: empty string if absent. -/
def getAnn (anns : List (String × String)) (key : String) : String :=
  match anns.find? (fun kv => kv.1 = key) with
  | some kv => kv.2
  | none => ""

/-- Write an annotation the way a Go map write does: overwrite the key if
present, otherwise add it. -/
def setAnn (anns : List (String × String)) (key val : String) :
    List (String × String) :=
  if anns.any (fun kv => kv.1 = key) then
    anns.map (fun kv => if kv.1 = key then (key, val) else kv)
  else anns ++ [(key, val)]

/-- Result of a client List call: the item list, or a transient failure. -/
inductive ListResult (α : Type) where
  | ok (items : List α)
  | err
deriving DecidableEq, Repr

/-- An audit event recorded on the budget object:
`Recorder.Event(activeBudget, etype, reason, message)`. -/
structure Event where
  objectName : String
  etype : String
  reason : String
  message : String
deriving DecidableEq, Repr

/-- The admission decision of `ValidateCreate`: `allow` is the Go
`return nil, nil`, `deny` carries the rejection error message, and
`internalError` is the hard error when listing existing pods fails. -/
inductive Decision where
  | allow
  | deny (msg : String)
  | internalError (msg : String)
deriving DecidableEq, Repr

/-- Everything one `ValidateCreate` call produces: its decision, the audit
events it emits, how often it increments the `finops_rejected_pods_total`
counter for the namespace of the pod, and the amount it adds to
`finops_saved_cpu_millicores_total` for that namespace. -/
structure ValidateResult where
  decision : Decision
  events : List Event
  rejectedInc : Nat
  savedCpuAdd : Int
deriving DecidableEq, Repr

/-- The result of a call with no side effects that allows the pod. -/
def allowResult : ValidateResult := ⟨Decision.allow, [], 0, 0⟩

/-- The first budget whose `TeamName` equals the namespace (the Go loop
with `break`). -/
def findActiveBudget (items : List ProjectBudget) (ns : String) :
    Option ProjectBudget :=
  items.find? (fun b => b.spec.teamName = ns)

/-- CPU cost of a pod: sum of the CPU limits of its containers, in millicores. -/
def podCpuCost (pod : Pod) : Int :=
  pod.containers.foldl (fun acc c => acc + c.cpuLimitMilli.getD 0) 0

/-- Memory cost of a pod: sum of the memory limits of its containers, in bytes. -/
def podMemCost (pod : Pod) : Int :=
  pod.containers.foldl (fun acc c => acc + c.memLimitBytes.getD 0) 0

/-- The usage summation loop shared by `ValidateCreate` (step 3) and
`calculateCurrentUsage`: sum CPU and memory limits over pods, skipping
pods whose phase is Succeeded or Failed. -/
def usageLoop (pods : List Pod) : Int × Int :=
  pods.foldl
    (fun acc p =>
      if p.phase = PodPhase.Succeeded ∨ p.phase = PodPhase.Failed then acc
      else (acc.1 + podCpuCost p, acc.2 + podMemCost p))
    (0, 0)

/-- Embedding of `calculateCurrentUsage`: list the pods of the namespace (the caller
supplies the outcome of that List call) and run the usage loop; a listing
failure is returned as an error. -/
def calculateCurrentUsage (existingPods : ListResult Pod) :
    Except Unit (Int × Int) :=
  match existingPods with
  | ListResult.err => Except.error ()
  | ListResult.ok pods => Except.ok (usageLoop pods)

/-- Embedding of `ValidateCreate`. Inputs: the outcome of listing all ProjectBudgets,
the outcome of listing the pods of the namespace of the incoming pod, and the
incoming pod. Follows pod_webhook.go step by step: fail-open on budget
listing failure or no matching budget; hard error on pod listing failure;
CPU check (parse error of `maxCpuLimit` discarded, leaving the zero
quantity) with DryRun/Enforce branches; then the memory check, only when
`maxMemoryLimit` is set, fail-open when it does not parse. -/
def ValidateCreate (budgets : ListResult ProjectBudget)
    (existingPods : ListResult Pod) (pod : Pod) : ValidateResult :=
  match budgets with
  | ListResult.err => allowResult
  | ListResult.ok items =>
    match findActiveBudget items pod.ns with
    | none => allowResult
    | some activeBudget =>
      let newPodCpuCost := podCpuCost pod
      let newPodMemCost := podMemCost pod
      match existingPods with
      | ListResult.err =>
        ⟨Decision.internalError ("failed to list existing pods"), [], 0, 0⟩
      | ListResult.ok pods =>
        let currentCpuUsage := (usageLoop pods).1
        let currentMemUsage := (usageLoop pods).2
        let limitCpuQuantity :=
          (ParseQuantity activeBudget.spec.maxCpuLimit).getD ⟨0⟩
        let limitCpuMilli := limitCpuQuantity.MilliValue
        let totalCpuAfter := currentCpuUsage + newPodCpuCost
        if totalCpuAfter > limitCpuMilli then
          let violationMsg :=
            "DENIED by FinOps: CPU Budget exceeded for team \x27" ++ pod.ns ++
            "\x27. Used: " ++ toString currentCpuUsage ++ "m, Limit: " ++
            toString limitCpuMilli ++ "m, Request: " ++
            toString newPodCpuCost ++ "m"
          if activeBudget.spec.validationMode = DryRunMode then
            let dryRunMsg :=
              "[DRY-RUN] Violation detected but allowed: " ++ violationMsg
            ⟨Decision.allow,
             [⟨activeBudget.name, "Warning", "DryRunViolation", dryRunMsg⟩],
             1, 0⟩
          else
            ⟨Decision.deny violationMsg,
             [⟨activeBudget.name, "Warning", "BudgetExceeded", violationMsg⟩],
             1, newPodCpuCost⟩
        else
          if activeBudget.spec.maxMemoryLimit ≠ "" then
            match ParseQuantity activeBudget.spec.maxMemoryLimit with
            | none => allowResult
            | some limitMemQuantity =>
              let limitMemBytes := limitMemQuantity.Value
              let totalMemAfter := currentMemUsage + newPodMemCost
              if totalMemAfter > limitMemBytes then
                let violationMsg :=
                  "DENIED by FinOps: RAM Budget exceeded for team \x27" ++
                  pod.ns ++ "\x27. Used: " ++ toString currentMemUsage ++
                  " bytes, Limit: " ++ toString limitMemBytes ++
                  " bytes, Request: " ++ toString newPodMemCost ++ " bytes"
                if activeBudget.spec.validationMode = DryRunMode then
                  let dryRunMsg :=
                    "[DRY-RUN] Violation detected but allowed: " ++ violationMsg
                  ⟨Decision.allow,
                   [⟨activeBudget.name, "Warning", "DryRunViolation",
                     dryRunMsg⟩],
                   1, 0⟩
                else
                  ⟨Decision.deny violationMsg,
                   [⟨activeBudget.name, "Warning", "BudgetExceeded",
                     violationMsg⟩],
                   0, 0⟩
              else allowResult
          else allowResult

/-- Everything one `Default` (Auto-Sizer) call produces: the possibly
rewritten pod and the audit events it emits. -/
structure DefaultResult where
  pod : Pod
  events : List Event
deriving DecidableEq, Repr

/-- The auto-resize opt-in annotation key. -/
def autoResizeKey : String := "finops.acasa.acme/auto-resize"

/-- The annotation key the Auto-Sizer sets after rewriting a pod. -/
def resizedKey : String := "finops.acasa.acme/resized"

/-- Embedding of `Default` (the Auto-Sizer mutating webhook). Follows pod_webhook.go:
no-op unless the pod carries the auto-resize annotation set to "true";
no-op on budget listing failure, missing budget, or usage listing failure;
computes `remainingCpu` from the parsed CPU limit (parse error discarded,
leaving the zero quantity) and no-ops when `remainingCpu ≤ 0`; otherwise,
when the CPU limit of the FIRST container exceeds `remainingCpu`, clamps it to
`remainingCpu`, sets the resized annotation and emits the audit event. -/
def Default (budgets : ListResult ProjectBudget) (existingPods : ListResult Pod)
    (pod : Pod) : DefaultResult :=
  if getAnn pod.annotations autoResizeKey ≠ "true" then ⟨pod, []⟩
  else
    match budgets with
    | ListResult.err => ⟨pod, []⟩
    | ListResult.ok items =>
      match findActiveBudget items pod.ns with
      | none => ⟨pod, []⟩
      | some activeBudget =>
        match calculateCurrentUsage existingPods with
        | Except.error _ => ⟨pod, []⟩
        | Except.ok currentUsage =>
          let currentCpu := currentUsage.1
          let limitCpuQuantity :=
            (ParseQuantity activeBudget.spec.maxCpuLimit).getD ⟨0⟩
          let limitCpuMilli := limitCpuQuantity.MilliValue
          let remainingCpu := limitCpuMilli - currentCpu
          if remainingCpu ≤ 0 then ⟨pod, []⟩
          else
            match pod.containers with
            | [] => ⟨pod, []⟩
            | container :: rest =>
              let requestCpu := container.cpuLimitMilli.getD 0
              if requestCpu > remainingCpu then
                let oldCpu := requestCpu
                let newContainer :=
                  { container with cpuLimitMilli := some remainingCpu }
                let msg :=
                  "Auto-Sized Pod CPU from " ++ toString oldCpu ++ "m to " ++
                  toString remainingCpu ++ "m to fit budget"
                ⟨{ pod with
                    containers := newContainer :: rest,
                    annotations := setAnn pod.annotations resizedKey ("true") },
                 [⟨activeBudget.name, "Normal", "PodAutoSized", msg⟩]⟩
              else ⟨pod, []⟩


/-- The CPU deny/dry-run message of `ValidateCreate`, as a function of the
scope, current usage, limit and incoming cost. -/
def cpuViolationMsg (ns : String) (cur lim cost : Int) : String :=
  "DENIED by FinOps: CPU Budget exceeded for team \x27" ++ ns ++
  "\x27. Used: " ++ toString cur ++ "m, Limit: " ++ toString lim ++
  "m, Request: " ++ toString cost ++ "m"

/-- The RAM deny/dry-run message of `ValidateCreate`. -/
def memViolationMsg (ns : String) (cur lim cost : Int) : String :=
  "DENIED by FinOps: RAM Budget exceeded for team \x27" ++ ns ++
  "\x27. Used: " ++ toString cur ++ " bytes, Limit: " ++ toString lim ++
  " bytes, Request: " ++ toString cost ++ " bytes"

/-- The effective CPU limit: parsed `maxCpuLimit`, with the parse error
discarded (zero quantity) as in the Go code. -/
def effCpuLimit (b : ProjectBudget) : Int :=
  ((ParseQuantity b.spec.maxCpuLimit).getD ⟨0⟩).MilliValue



/-- A copy of a budget with its `maxMemoryLimit` replaced (used to state
that a decision is independent of the memory dimension). -/
def setMem (b : ProjectBudget) (m : String) : ProjectBudget :=
  ⟨b.name, ⟨b.spec.teamName, b.spec.maxCpuLimit, m, b.spec.validationMode⟩⟩

/-- A copy of a budget with its `validationMode` replaced (used to compare
enforcement modes). -/
def setMode (b : ProjectBudget) (m : String) : ProjectBudget :=
  ⟨b.name, ⟨b.spec.teamName, b.spec.maxCpuLimit, b.spec.maxMemoryLimit, m⟩⟩

end PodWebhook

namespace PodWebhook


lemma ParseQuantity_ne_empty {s : String} {q : Quantity}
    (h : ParseQuantity s = some q) : s ≠ "" := by
  intro e
  subst e
  simp [ParseQuantity] at h

lemma findActiveBudget_none (items : List ProjectBudget) (ns : String)
    (h : ∀ b ∈ items, b.spec.teamName ≠ ns) :
    findActiveBudget items ns = none := by
  simp only [findActiveBudget, List.find?_eq_none, decide_eq_true_eq]
  exact h
lemma vc_cpu_violation_enforce (items : List ProjectBudget) (pods : List Pod)
    (pod : Pod) (b : ProjectBudget)
    (hfind : findActiveBudget items pod.ns = some b)
    (hviol : effCpuLimit b < (usageLoop pods).1 + podCpuCost pod)
    (hmode : b.spec.validationMode ≠ DryRunMode) :
    ValidateCreate (ListResult.ok items) (ListResult.ok pods) pod =
      ⟨Decision.deny
        (cpuViolationMsg pod.ns (usageLoop pods).1 (effCpuLimit b)
          (podCpuCost pod)),
       [⟨b.name, "Warning", "BudgetExceeded",
         cpuViolationMsg pod.ns (usageLoop pods).1 (effCpuLimit b)
           (podCpuCost pod)⟩],
       1, podCpuCost pod⟩ := by
  simp only [effCpuLimit] at hviol
  simp only [ValidateCreate, hfind, cpuViolationMsg, effCpuLimit]
  rw [if_pos hviol, if_neg hmode]

lemma vc_cpu_violation_dryrun (items : List ProjectBudget) (pods : List Pod)
    (pod : Pod) (b : ProjectBudget)
    (hfind : findActiveBudget items pod.ns = some b)
    (hviol : effCpuLimit b < (usageLoop pods).1 + podCpuCost pod)
    (hmode : b.spec.validationMode = DryRunMode) :
    ValidateCreate (ListResult.ok items) (ListResult.ok pods) pod =
      ⟨Decision.allow,
       [⟨b.name, "Warning", "DryRunViolation",
         "[DRY-RUN] Violation detected but allowed: " ++
         cpuViolationMsg pod.ns (usageLoop pods).1 (effCpuLimit b)
           (podCpuCost pod)⟩],
       1, 0⟩ := by
  simp only [effCpuLimit] at hviol
  simp only [ValidateCreate, hfind, cpuViolationMsg, effCpuLimit]
  rw [if_pos hviol, if_pos hmode]

lemma vc_no_cpu_viol_no_mem (items : List ProjectBudget) (pods : List Pod)
    (pod : Pod) (b : ProjectBudget)
    (hfind : findActiveBudget items pod.ns = some b)
    (hok : (usageLoop pods).1 + podCpuCost pod ≤ effCpuLimit b)
    (hmem : b.spec.maxMemoryLimit = "") :
    ValidateCreate (ListResult.ok items) (ListResult.ok pods) pod =
      allowResult := by
  simp only [effCpuLimit] at hok
  simp only [ValidateCreate, hfind]
  rw [if_neg (not_lt.mpr hok), if_neg (by simp [hmem])]

lemma vc_no_cpu_viol_mem_parse_fail (items : List ProjectBudget)
    (pods : List Pod) (pod : Pod) (b : ProjectBudget)
    (hfind : findActiveBudget items pod.ns = some b)
    (hok : (usageLoop pods).1 + podCpuCost pod ≤ effCpuLimit b)
    (hne : b.spec.maxMemoryLimit ≠ "")
    (hparse : ParseQuantity b.spec.maxMemoryLimit = none) :
    ValidateCreate (ListResult.ok items) (ListResult.ok pods) pod =
      allowResult := by
  simp only [effCpuLimit] at hok
  simp only [ValidateCreate, hfind]
  rw [if_neg (not_lt.mpr hok), if_pos hne, hparse]

lemma vc_no_cpu_viol_mem_ok (items : List ProjectBudget) (pods : List Pod)
    (pod : Pod) (b : ProjectBudget) (qm : Quantity)
    (hfind : findActiveBudget items pod.ns = some b)
    (hok : (usageLoop pods).1 + podCpuCost pod ≤ effCpuLimit b)
    (hqm : ParseQuantity b.spec.maxMemoryLimit = some qm)
    (hmok : (usageLoop pods).2 + podMemCost pod ≤ qm.Value) :
    ValidateCreate (ListResult.ok items) (ListResult.ok pods) pod =
      allowResult := by
  simp only [effCpuLimit] at hok
  simp only [ValidateCreate, hfind]
  rw [if_neg (not_lt.mpr hok), if_pos (ParseQuantity_ne_empty hqm), hqm]
  simp only
  rw [if_neg (not_lt.mpr hmok)]

lemma vc_mem_violation_enforce (items : List ProjectBudget) (pods : List Pod)
    (pod : Pod) (b : ProjectBudget) (qm : Quantity)
    (hfind : findActiveBudget items pod.ns = some b)
    (hok : (usageLoop pods).1 + podCpuCost pod ≤ effCpuLimit b)
    (hqm : ParseQuantity b.spec.maxMemoryLimit = some qm)
    (hviol : qm.Value < (usageLoop pods).2 + podMemCost pod)
    (hmode : b.spec.validationMode ≠ DryRunMode) :
    ValidateCreate (ListResult.ok items) (ListResult.ok pods) pod =
      ⟨Decision.deny
        (memViolationMsg pod.ns (usageLoop pods).2 qm.Value (podMemCost pod)),
       [⟨b.name, "Warning", "BudgetExceeded",
         memViolationMsg pod.ns (usageLoop pods).2 qm.Value (podMemCost pod)⟩],
       0, 0⟩ := by
  simp only [effCpuLimit] at hok
  simp only [ValidateCreate, hfind, memViolationMsg]
  rw [if_neg (not_lt.mpr hok), if_pos (ParseQuantity_ne_empty hqm), hqm]
  simp only
  rw [if_pos hviol, if_neg hmode]

lemma vc_mem_violation_dryrun (items : List ProjectBudget) (pods : List Pod)
    (pod : Pod) (b : ProjectBudget) (qm : Quantity)
    (hfind : findActiveBudget items pod.ns = some b)
    (hok : (usageLoop pods).1 + podCpuCost pod ≤ effCpuLimit b)
    (hqm : ParseQuantity b.spec.maxMemoryLimit = some qm)
    (hviol : qm.Value < (usageLoop pods).2 + podMemCost pod)
    (hmode : b.spec.validationMode = DryRunMode) :
    ValidateCreate (ListResult.ok items) (ListResult.ok pods) pod =
      ⟨Decision.allow,
       [⟨b.name, "Warning", "DryRunViolation",
         "[DRY-RUN] Violation detected but allowed: " ++
         memViolationMsg pod.ns (usageLoop pods).2 qm.Value
           (podMemCost pod)⟩],
       1, 0⟩ := by
  simp only [effCpuLimit] at hok
  simp only [ValidateCreate, hfind, memViolationMsg]
  rw [if_neg (not_lt.mpr hok), if_pos (ParseQuantity_ne_empty hqm), hqm]
  simp only
  rw [if_pos hviol, if_pos hmode]


lemma foldl_add_eq {α : Type} (f : α → Int) :
    ∀ (l : List α) (a : Int),
      l.foldl (fun acc x => acc + f x) a = a + (l.map f).sum := by
  intro l
  induction l with
  | nil => intro a; simp
  | cons x xs ih => intro a; simp [ih, add_assoc]

lemma podCpuCost_eq (p : Pod) :
    podCpuCost p = (p.containers.map (fun c => c.cpuLimitMilli.getD 0)).sum := by
  simpa using foldl_add_eq (fun c => c.cpuLimitMilli.getD 0) p.containers 0

lemma podMemCost_eq (p : Pod) :
    podMemCost p = (p.containers.map (fun c => c.memLimitBytes.getD 0)).sum := by
  simpa using foldl_add_eq (fun c => c.memLimitBytes.getD 0) p.containers 0

lemma usageLoop_go :
    ∀ (pods : List Pod) (a : Int × Int),
      pods.foldl
        (fun acc p =>
          if p.phase = PodPhase.Succeeded ∨ p.phase = PodPhase.Failed then acc
          else (acc.1 + podCpuCost p, acc.2 + podMemCost p)) a =
      (a.1 + ((pods.filter (fun p =>
          ¬(p.phase = PodPhase.Succeeded ∨ p.phase = PodPhase.Failed))).map
            podCpuCost).sum,
       a.2 + ((pods.filter (fun p =>
          ¬(p.phase = PodPhase.Succeeded ∨ p.phase = PodPhase.Failed))).map
            podMemCost).sum) := by
  intro pods
  induction pods with
  | nil => intro a; simp
  | cons p t ih =>
    intro a
    by_cases hp : p.phase = PodPhase.Succeeded ∨ p.phase = PodPhase.Failed
    · rw [List.foldl_cons, if_pos hp, ih, List.filter_cons_of_neg (by simp [hp])]
    · rw [List.foldl_cons, if_neg hp, ih, List.filter_cons_of_pos (by simp [hp])]
      simp [add_assoc]

lemma usageLoop_eq (pods : List Pod) :
    usageLoop pods =
      (((pods.filter (fun p =>
          ¬(p.phase = PodPhase.Succeeded ∨ p.phase = PodPhase.Failed))).map
            podCpuCost).sum,
       ((pods.filter (fun p =>
          ¬(p.phase = PodPhase.Succeeded ∨ p.phase = PodPhase.Failed))).map
            podMemCost).sum) := by
  simpa using usageLoop_go pods (0, 0)


lemma findActiveBudget_singleton (x : ProjectBudget) (ns : String)
    (h : x.spec.teamName = ns) : findActiveBudget [x] ns = some x := by
  simp [findActiveBudget, h]

lemma getAnn_setAnn (anns : List (String × String)) (k v : String) :
    getAnn (setAnn anns k v) k = v := by
  induction anns with
  | nil => simp [setAnn, getAnn]
  | cons kv t ih =>
    by_cases h1 : kv.1 = k
    · simp [setAnn, getAnn, h1]
    · by_cases h2 : t.any (fun kv => kv.1 = k)
      · simp only [setAnn, List.any_cons, h1, h2] at ih ⊢
        simp only [decide_eq_true_eq] at *
        simp [getAnn, h1, h2, List.find?] at ih ⊢
        simpa [h1] using ih
      · simp only [setAnn, List.any_cons, h1, h2] at ih ⊢
        simp [getAnn, h1, h2, List.find?] at ih ⊢
        simpa [h1] using ih


lemma default_clamp (items : List ProjectBudget) (pods : List Pod)
    (pod : Pod) (b : ProjectBudget) (qc : Quantity) (c : Container)
    (rest : List Container)
    (hann : getAnn pod.annotations autoResizeKey = "true")
    (hfind : findActiveBudget items pod.ns = some b)
    (hq : ParseQuantity b.spec.maxCpuLimit = some qc)
    (hrem : 0 < qc.MilliValue - (usageLoop pods).1)
    (hc : pod.containers = c :: rest)
    (hgt : qc.MilliValue - (usageLoop pods).1 < c.cpuLimitMilli.getD 0) :
    Default (ListResult.ok items) (ListResult.ok pods) pod =
      ⟨{ pod with
          containers :=
            ⟨some (qc.MilliValue - (usageLoop pods).1), c.memLimitBytes⟩ ::
              rest,
          annotations := setAnn pod.annotations resizedKey ("true") },
       [⟨b.name, "Normal", "PodAutoSized",
         "Auto-Sized Pod CPU from " ++ toString (c.cpuLimitMilli.getD 0) ++
         "m to " ++ toString (qc.MilliValue - (usageLoop pods).1) ++
         "m to fit budget"⟩]⟩ := by
  simp only [Default]
  rw [if_neg (by simp [hann])]
  simp only [hfind, calculateCurrentUsage, hq, Option.getD_some, hc]
  rw [if_neg (not_le.mpr hrem), if_pos hgt]

lemma default_no_clamp (items : List ProjectBudget) (pods : List Pod)
    (pod : Pod) (b : ProjectBudget) (qc : Quantity) (c : Container)
    (rest : List Container)
    (hann : getAnn pod.annotations autoResizeKey = "true")
    (hfind : findActiveBudget items pod.ns = some b)
    (hq : ParseQuantity b.spec.maxCpuLimit = some qc)
    (hrem : 0 < qc.MilliValue - (usageLoop pods).1)
    (hc : pod.containers = c :: rest)
    (hle : c.cpuLimitMilli.getD 0 ≤ qc.MilliValue - (usageLoop pods).1) :
    Default (ListResult.ok items) (ListResult.ok pods) pod = ⟨pod, []⟩ := by
  simp only [Default]
  rw [if_neg (by simp [hann])]
  simp only [hfind, calculateCurrentUsage, hq, Option.getD_some, hc]
  rw [if_neg (not_le.mpr hrem), if_neg (not_lt.mpr hle)]

end PodWebhook

open PodWebhook



/-- Claim C7: `currentUsage(scope)` equals, for every list of workloads in the
scope, the sum over non-terminal workloads (phase neither Succeeded nor
Failed) of the declared CPU ceilings (millicores) and memory ceilings
(bytes) across all their containers, a container without a declared
ceiling contributing 0; terminal workloads contribute nothing. -/
theorem c7_current_usage_is_sum_over_nonterminal (pods : List Pod) :
    calculateCurrentUsage (ListResult.ok pods) =
      Except.ok
        (((pods.filter (fun p =>
            ¬(p.phase = PodPhase.Succeeded ∨ p.phase = PodPhase.Failed))).map
              (fun p => (p.containers.map
                (fun c => c.cpuLimitMilli.getD 0)).sum)).sum,
         ((pods.filter (fun p =>
            ¬(p.phase = PodPhase.Succeeded ∨ p.phase = PodPhase.Failed))).map
              (fun p => (p.containers.map
                (fun c => c.memLimitBytes.getD 0)).sum)).sum) := by
  have hc : podCpuCost = fun p : Pod =>
      (p.containers.map (fun c => c.cpuLimitMilli.getD 0)).sum :=
    funext podCpuCost_eq
  have hm : podMemCost = fun p : Pod =>
      (p.containers.map (fun c => c.memLimitBytes.getD 0)).sum :=
    funext podMemCost_eq
  have h := usageLoop_eq pods
  simp only [calculateCurrentUsage, h, hc, hm]

/-- Claim C8: a workload that does not carry the auto-resize opt-in annotation
set to "true" is returned completely unchanged by the Auto-Sizer, for any
budget state: no container resources modified, no annotation added, no
event emitted. -/
theorem c8_default_noop_without_opt_in (budgets : ListResult ProjectBudget)
    (existingPods : ListResult Pod) (pod : Pod)
    (h : getAnn pod.annotations autoResizeKey ≠ "true") :
    Default budgets existingPods pod = ⟨pod, []⟩ := by
  simp only [Default]
  rw [if_pos h]

/-- Claim C8 witness: the Auto-Sizer is a no-op on a concrete pod without the
opt-in annotation, even with a matching budget and remaining headroom. -/
theorem c8_witness :
    Default (ListResult.ok [⟨"b", ⟨"t", "5m", "", "Enforce"⟩⟩])
      (ListResult.ok []) ⟨"p", "t", [], [⟨some 7, none⟩], PodPhase.Pending⟩ =
      ⟨⟨"p", "t", [], [⟨some 7, none⟩], PodPhase.Pending⟩, []⟩ :=
  c8_default_noop_without_opt_in _ _ _ (by decide)

/-- Claim C5: for every incoming workload, if the budget listing fails, or no
teamName of any budget equals the namespace of the pod, `ValidateCreate` allows the
request regardless of its cost, with no counter increment and no event. -/
theorem c5_fail_open_no_budget (budgets : ListResult ProjectBudget)
    (existingPods : ListResult Pod) (pod : Pod) :
    (budgets = ListResult.err →
      ValidateCreate budgets existingPods pod = allowResult) ∧
    (∀ items, budgets = ListResult.ok items →
      (∀ b ∈ items, b.spec.teamName ≠ pod.ns) →
      ValidateCreate budgets existingPods pod = allowResult) := by
  constructor
  · rintro rfl; rfl
  · rintro items rfl hnone
    simp [ValidateCreate, findActiveBudget_none items pod.ns hnone]

/-- Claim C5 witness: a concrete costly pod is allowed with no side effects both
when the budget listing fails and when the only budget names another team. -/
theorem c5_witness :
    ValidateCreate ListResult.err (ListResult.ok [])
      ⟨"p", "t", [], [⟨some 7, none⟩], PodPhase.Pending⟩ = allowResult ∧
    ValidateCreate (ListResult.ok [⟨"b", ⟨"other", "5m", "", "Enforce"⟩⟩])
      (ListResult.ok []) ⟨"p", "t", [], [⟨some 7, none⟩], PodPhase.Pending⟩ =
      allowResult :=
  ⟨(c5_fail_open_no_budget ListResult.err (ListResult.ok []) _).1 rfl,
   (c5_fail_open_no_budget _ (ListResult.ok []) _).2 _ rfl (by decide)⟩

/-- Claim C1 (amended): with a resolved budget and a parsed CPU limit, projected
usage within both limits yields Allow with no side effects; a CPU
violation yields Deny in Enforce mode and allow-with-dry-run-warning in
DryRun mode, both incrementing the rejection counter exactly once; a
memory-only violation yields Deny in Enforce mode WITHOUT incrementing the
rejection counter, and allow-with-warning with one increment in DryRun. -/
theorem c1_decide_outcomes_and_rejection_counter (items : List ProjectBudget)
    (pods : List Pod) (pod : Pod) (b : ProjectBudget) (qc : Quantity)
    (hfind : findActiveBudget items pod.ns = some b)
    (hcpu : ParseQuantity b.spec.maxCpuLimit = some qc) :
    ((usageLoop pods).1 + podCpuCost pod ≤ qc.MilliValue →
      (b.spec.maxMemoryLimit = "" →
        ValidateCreate (ListResult.ok items) (ListResult.ok pods) pod =
          allowResult) ∧
      (∀ qm, ParseQuantity b.spec.maxMemoryLimit = some qm →
        (usageLoop pods).2 + podMemCost pod ≤ qm.Value →
        ValidateCreate (ListResult.ok items) (ListResult.ok pods) pod =
          allowResult)) ∧
    (qc.MilliValue < (usageLoop pods).1 + podCpuCost pod →
      (b.spec.validationMode = DryRunMode →
        (ValidateCreate (ListResult.ok items) (ListResult.ok pods)
            pod).decision = Decision.allow ∧
        (ValidateCreate (ListResult.ok items) (ListResult.ok pods)
            pod).rejectedInc = 1 ∧
        (ValidateCreate (ListResult.ok items) (ListResult.ok pods)
            pod).events =
          [⟨b.name, "Warning", "DryRunViolation",
            "[DRY-RUN] Violation detected but allowed: " ++
            cpuViolationMsg pod.ns (usageLoop pods).1 qc.MilliValue
              (podCpuCost pod)⟩]) ∧
      (b.spec.validationMode ≠ DryRunMode →
        (ValidateCreate (ListResult.ok items) (ListResult.ok pods)
            pod).decision =
          Decision.deny (cpuViolationMsg pod.ns (usageLoop pods).1
            qc.MilliValue (podCpuCost pod)) ∧
        (ValidateCreate (ListResult.ok items) (ListResult.ok pods)
            pod).rejectedInc = 1)) ∧
    ((usageLoop pods).1 + podCpuCost pod ≤ qc.MilliValue →
      ∀ qm, ParseQuantity b.spec.maxMemoryLimit = some qm →
        qm.Value < (usageLoop pods).2 + podMemCost pod →
        (b.spec.validationMode = DryRunMode →
          (ValidateCreate (ListResult.ok items) (ListResult.ok pods)
              pod).decision = Decision.allow ∧
          (ValidateCreate (ListResult.ok items) (ListResult.ok pods)
              pod).rejectedInc = 1) ∧
        (b.spec.validationMode ≠ DryRunMode →
          (ValidateCreate (ListResult.ok items) (ListResult.ok pods)
              pod).decision =
            Decision.deny (memViolationMsg pod.ns (usageLoop pods).2
              qm.Value (podMemCost pod)) ∧
          (ValidateCreate (ListResult.ok items) (ListResult.ok pods)
              pod).rejectedInc = 0)) := by
  have he : effCpuLimit b = qc.MilliValue := by
    simp [effCpuLimit, hcpu]
  rw [← he]
  refine ⟨?_, ?_, ?_⟩
  · intro hle
    exact ⟨fun hmem => vc_no_cpu_viol_no_mem _ _ _ _ hfind hle hmem,
           fun qm hqm hmok =>
             vc_no_cpu_viol_mem_ok _ _ _ _ _ hfind hle hqm hmok⟩
  · intro hviol
    constructor
    · intro hmode
      rw [vc_cpu_violation_dryrun _ _ _ _ hfind hviol hmode]
      exact ⟨rfl, rfl, rfl⟩
    · intro hmode
      rw [vc_cpu_violation_enforce _ _ _ _ hfind hviol hmode]
      exact ⟨rfl, rfl⟩
  · intro hle qm hqm hmv
    constructor
    · intro hmode
      rw [vc_mem_violation_dryrun _ _ _ _ _ hfind hle hqm hmv hmode]
      exact ⟨rfl, rfl⟩
    · intro hmode
      rw [vc_mem_violation_enforce _ _ _ _ _ hfind hle hqm hmv hmode]
      exact ⟨rfl, rfl⟩

/-- Claim C1 counterexample: a concrete Enforce-mode budget with memory limit
1Ki, existing usage 1000 bytes and an incoming pod costing 100 bytes is
denied (projected memory 1100 exceeds the limit), yet the rejection
counter is not incremented — refuting that both modes increment it
exactly once on every limit violation. -/
theorem c1_counterexample :
    (ValidateCreate (ListResult.ok [⟨"bm", ⟨"t", "5m", "1Ki", "Enforce"⟩⟩])
        (ListResult.ok [⟨"q", "t", [], [⟨none, some 1000⟩],
          PodPhase.Running⟩])
        ⟨"p", "t", [], [⟨none, some 100⟩], PodPhase.Pending⟩).decision =
      Decision.deny (memViolationMsg ("t") 1000 1024 100) ∧
    (ValidateCreate (ListResult.ok [⟨"bm", ⟨"t", "5m", "1Ki", "Enforce"⟩⟩])
        (ListResult.ok [⟨"q", "t", [], [⟨none, some 1000⟩],
          PodPhase.Running⟩])
        ⟨"p", "t", [], [⟨none, some 100⟩], PodPhase.Pending⟩).rejectedInc
      ≠ 1 := by
  constructor
  · rfl
  · decide

/-- Claim C1 witness: the amended theorem applied to a concrete Enforce-mode CPU
violation (limit 5m, current 0m, incoming 7m): Deny with one rejection
increment. -/
theorem c1_witness :
    (ValidateCreate (ListResult.ok [⟨"b", ⟨"t", "5m", "", "Enforce"⟩⟩])
        (ListResult.ok [])
        ⟨"p", "t", [], [⟨some 7, none⟩], PodPhase.Pending⟩).decision =
      Decision.deny (cpuViolationMsg ("t") 0 5 7) ∧
    (ValidateCreate (ListResult.ok [⟨"b", ⟨"t", "5m", "", "Enforce"⟩⟩])
        (ListResult.ok [])
        ⟨"p", "t", [], [⟨some 7, none⟩], PodPhase.Pending⟩).rejectedInc =
      1 :=
  ((c1_decide_outcomes_and_rejection_counter
      [⟨"b", ⟨"t", "5m", "", "Enforce"⟩⟩] []
      ⟨"p", "t", [], [⟨some 7, none⟩], PodPhase.Pending⟩
      ⟨"b", ⟨"t", "5m", "", "Enforce"⟩⟩ ⟨5⟩ (by decide) (by decide)).2.1
    (by decide)).2 (by decide)

/-- Claim C2 (amended): a budget whose MEMORY limit string fails to parse is
fail-open — the memory check is skipped and the request is allowed when
CPU is within limit; a budget whose CPU limit string fails to parse is NOT
fail-open — the parse error is discarded and the limit treated as 0, so a
request with positive projected CPU usage is denied outside DryRun mode. -/
theorem c2_malformed_limit_handling (items : List ProjectBudget)
    (pods : List Pod) (pod : Pod) (b : ProjectBudget)
    (hfind : findActiveBudget items pod.ns = some b) :
    (ParseQuantity b.spec.maxMemoryLimit = none →
      b.spec.maxMemoryLimit ≠ "" →
      (usageLoop pods).1 + podCpuCost pod ≤ effCpuLimit b →
      ValidateCreate (ListResult.ok items) (ListResult.ok pods) pod =
        allowResult) ∧
    (ParseQuantity b.spec.maxCpuLimit = none →
      0 < (usageLoop pods).1 + podCpuCost pod →
      b.spec.validationMode ≠ DryRunMode →
      (ValidateCreate (ListResult.ok items) (ListResult.ok pods)
          pod).decision =
        Decision.deny (cpuViolationMsg pod.ns (usageLoop pods).1 0
          (podCpuCost pod))) := by
  constructor
  · intro hparse hne hok
    exact vc_no_cpu_viol_mem_parse_fail _ _ _ _ hfind hok hne hparse
  · intro hparse hpos hmode
    have he : effCpuLimit b = 0 := by
      simp [effCpuLimit, hparse, Quantity.MilliValue]
    rw [← he] at hpos ⊢
    rw [vc_cpu_violation_enforce _ _ _ _ hfind hpos hmode]

/-- Claim C2 counterexample: a concrete Enforce-mode budget whose CPU limit
"12x" fails to parse does not allow the incoming 7m pod: the parse error
is discarded, the limit becomes 0m, and the pod is denied. -/
theorem c2_counterexample :
    ParseQuantity ("12x") = none ∧
    (ValidateCreate (ListResult.ok [⟨"bx", ⟨"t", "12x", "", "Enforce"⟩⟩])
        (ListResult.ok [])
        ⟨"p", "t", [], [⟨some 7, none⟩], PodPhase.Pending⟩).decision =
      Decision.deny (cpuViolationMsg ("t") 0 0 7) := by
  constructor
  · rfl
  · rfl

/-- Claim C2 witness: the amended theorem applied to concrete budgets — a
malformed memory limit "1Zi" is skipped fail-open (request allowed), and a
malformed CPU limit "12x" leads to a denial of a 7m pod. -/
theorem c2_witness :
    ValidateCreate (ListResult.ok [⟨"bb", ⟨"t", "5m", "1Zi", "Enforce"⟩⟩])
      (ListResult.ok [])
      ⟨"p", "t", [], [⟨some 3, none⟩], PodPhase.Pending⟩ = allowResult ∧
    (ValidateCreate (ListResult.ok [⟨"bx", ⟨"t", "12x", "", "Enforce"⟩⟩])
        (ListResult.ok [])
        ⟨"p", "t", [], [⟨some 7, none⟩], PodPhase.Pending⟩).decision =
      Decision.deny (cpuViolationMsg ("t") 0 0 7) :=
  ⟨(c2_malformed_limit_handling [⟨"bb", ⟨"t", "5m", "1Zi", "Enforce"⟩⟩] []
      ⟨"p", "t", [], [⟨some 3, none⟩], PodPhase.Pending⟩
      ⟨"bb", ⟨"t", "5m", "1Zi", "Enforce"⟩⟩ (by decide)).1
      (by decide) (by decide) (by decide),
   (c2_malformed_limit_handling [⟨"bx", ⟨"t", "12x", "", "Enforce"⟩⟩] []
      ⟨"p", "t", [], [⟨some 7, none⟩], PodPhase.Pending⟩
      ⟨"bx", ⟨"t", "12x", "", "Enforce"⟩⟩ (by decide)).2
      (by decide) (by decide) (by decide)⟩

/-- Claim C3 (amended): on a CPU violation the saved-CPU counter is incremented
by the CPU cost of the incoming pod only outside DryRun mode (the Deny path);
in DryRun mode it is not incremented; consequently, after N consecutive
Enforce-mode CPU-violating Deny decisions the additions sum to the sum of
the incoming CPU costs. -/
theorem c3_saved_cpu_increments (items : List ProjectBudget)
    (pods : List Pod) (pod : Pod) (b : ProjectBudget)
    (hfind : findActiveBudget items pod.ns = some b)
    (hviol : effCpuLimit b < (usageLoop pods).1 + podCpuCost pod) :
    (b.spec.validationMode ≠ DryRunMode →
      (ValidateCreate (ListResult.ok items) (ListResult.ok pods)
          pod).savedCpuAdd = podCpuCost pod) ∧
    (b.spec.validationMode = DryRunMode →
      (ValidateCreate (ListResult.ok items) (ListResult.ok pods)
          pod).savedCpuAdd = 0) ∧
    (∀ reqs : List Pod,
      (∀ p ∈ reqs, findActiveBudget items p.ns = some b ∧
        b.spec.validationMode ≠ DryRunMode ∧
        effCpuLimit b < (usageLoop pods).1 + podCpuCost p) →
      (reqs.map (fun p =>
        (ValidateCreate (ListResult.ok items) (ListResult.ok pods)
          p).savedCpuAdd)).sum = (reqs.map podCpuCost).sum) := by
  refine ⟨?_, ?_, ?_⟩
  · intro hmode
    rw [vc_cpu_violation_enforce _ _ _ _ hfind hviol hmode]
  · intro hmode
    rw [vc_cpu_violation_dryrun _ _ _ _ hfind hviol hmode]
  · intro reqs hall
    induction reqs with
    | nil => rfl
    | cons p t ih =>
      have hp := hall p (List.mem_cons_self p t)
      have ht : ∀ q ∈ t, findActiveBudget items q.ns = some b ∧
          b.spec.validationMode ≠ DryRunMode ∧
          effCpuLimit b < (usageLoop pods).1 + podCpuCost q :=
        fun q hq => hall q (List.mem_cons_of_mem p hq)
      simp only [List.map_cons, List.sum_cons, ih ht]
      rw [vc_cpu_violation_enforce _ _ _ _ hp.1 hp.2.2 hp.2.1]

/-- Claim C3 counterexample: a concrete DryRun-mode CPU violation (incoming cost
7m): the decision is allow-with-warning with a rejection increment, but
the saved-CPU counter receives 0, not the incoming cost. -/
theorem c3_counterexample :
    podCpuCost ⟨"p", "t", [], [⟨some 7, none⟩], PodPhase.Pending⟩ = 7 ∧
    (ValidateCreate (ListResult.ok [⟨"b", ⟨"t", "5m", "", "DryRun"⟩⟩])
        (ListResult.ok [])
        ⟨"p", "t", [], [⟨some 7, none⟩], PodPhase.Pending⟩).rejectedInc =
      1 ∧
    (ValidateCreate (ListResult.ok [⟨"b", ⟨"t", "5m", "", "DryRun"⟩⟩])
        (ListResult.ok [])
        ⟨"p", "t", [], [⟨some 7, none⟩], PodPhase.Pending⟩).savedCpuAdd =
      0 := by
  refine ⟨rfl, rfl, rfl⟩

/-- Claim C3 witness: the amended theorem applied to a concrete Enforce-mode CPU
violation: the saved-CPU counter receives exactly the incoming 7m. -/
theorem c3_witness :
    (ValidateCreate (ListResult.ok [⟨"b", ⟨"t", "5m", "", "Enforce"⟩⟩])
        (ListResult.ok [])
        ⟨"p", "t", [], [⟨some 7, none⟩], PodPhase.Pending⟩).savedCpuAdd =
      podCpuCost ⟨"p", "t", [], [⟨some 7, none⟩], PodPhase.Pending⟩ :=
  (c3_saved_cpu_increments [⟨"b", ⟨"t", "5m", "", "Enforce"⟩⟩] []
      ⟨"p", "t", [], [⟨some 7, none⟩], PodPhase.Pending⟩
      ⟨"b", ⟨"t", "5m", "", "Enforce"⟩⟩ (by decide) (by decide)).1
    (by decide)

/-- Claim C4: every Deny outcome on a CPU violation carries exactly the message
DENIED by FinOps: CPU Budget exceeded for team <scope>. Used: <n>m,
Limit: <n>m, Request: <n>m (scope quoted in the message), with the pod
namespace as scope, the current
CPU usage, the parsed budget limit and the CPU cost of the incoming pod, all in
millicores. -/
theorem c4_cpu_deny_message_format (items : List ProjectBudget)
    (pods : List Pod) (pod : Pod) (b : ProjectBudget) (qc : Quantity)
    (hcpu : ParseQuantity b.spec.maxCpuLimit = some qc)
    (hfind : findActiveBudget items pod.ns = some b)
    (hviol : qc.MilliValue < (usageLoop pods).1 + podCpuCost pod)
    (hmode : b.spec.validationMode ≠ DryRunMode) :
    (ValidateCreate (ListResult.ok items) (ListResult.ok pods)
        pod).decision =
      Decision.deny
        ("DENIED by FinOps: CPU Budget exceeded for team \x27" ++ pod.ns ++
         "\x27. Used: " ++ toString (usageLoop pods).1 ++ "m, Limit: " ++
         toString qc.MilliValue ++ "m, Request: " ++
         toString (podCpuCost pod) ++ "m") := by
  have he : effCpuLimit b = qc.MilliValue := by
    simp [effCpuLimit, hcpu]
  rw [← he] at hviol ⊢
  rw [vc_cpu_violation_enforce _ _ _ _ hfind hviol hmode]
  rfl

/-- Claim C4 witness: the message theorem applied to a concrete violation
(scope "t", used 0m, limit 5m, request 7m) yielding the literal string. -/
theorem c4_witness :
    (ValidateCreate (ListResult.ok [⟨"b", ⟨"t", "5m", "", "Enforce"⟩⟩])
        (ListResult.ok [])
        ⟨"p", "t", [], [⟨some 7, none⟩], PodPhase.Pending⟩).decision =
      Decision.deny
        ("DENIED by FinOps: CPU Budget exceeded for team \x27t\x27. Used: 0m, Limit: 5m, Request: 7m") := by
  have h := c4_cpu_deny_message_format [⟨"b", ⟨"t", "5m", "", "Enforce"⟩⟩]
    [] ⟨"p", "t", [], [⟨some 7, none⟩], PodPhase.Pending⟩
    ⟨"b", ⟨"t", "5m", "", "Enforce"⟩⟩ ⟨5⟩ (by decide) (by decide)
    (by decide) (by decide)
  simpa using h



/-- Claim C6: CPU is evaluated before memory — under a CPU violation the result
is independent of the memory limit of the budget (the memory dimension is not
evaluated) and the outcome carries the CPU message; and the memory check
runs only when `maxMemoryLimit` is set: with it unset and CPU within
limit, the request is allowed with no side effects. -/
theorem c6_cpu_before_memory (b : ProjectBudget) (pods : List Pod)
    (pod : Pod) (hteam : b.spec.teamName = pod.ns) :
    (effCpuLimit b < (usageLoop pods).1 + podCpuCost pod →
      ∀ m1 m2, ValidateCreate (ListResult.ok [setMem b m1])
          (ListResult.ok pods) pod =
        ValidateCreate (ListResult.ok [setMem b m2])
          (ListResult.ok pods) pod) ∧
    (effCpuLimit b < (usageLoop pods).1 + podCpuCost pod →
      b.spec.validationMode ≠ DryRunMode →
      (ValidateCreate (ListResult.ok [b]) (ListResult.ok pods)
          pod).decision =
        Decision.deny (cpuViolationMsg pod.ns (usageLoop pods).1
          (effCpuLimit b) (podCpuCost pod))) ∧
    ((usageLoop pods).1 + podCpuCost pod ≤ effCpuLimit b →
      b.spec.maxMemoryLimit = "" →
      ValidateCreate (ListResult.ok [b]) (ListResult.ok pods) pod =
        allowResult) := by
  refine ⟨?_, ?_, ?_⟩
  · intro hviol m1 m2
    have hf1 : findActiveBudget [setMem b m1] pod.ns = some (setMem b m1) :=
      findActiveBudget_singleton _ _ hteam
    have hf2 : findActiveBudget [setMem b m2] pod.ns = some (setMem b m2) :=
      findActiveBudget_singleton _ _ hteam
    by_cases hmode : b.spec.validationMode = DryRunMode
    · rw [vc_cpu_violation_dryrun _ _ _ _ hf1 hviol hmode,
          vc_cpu_violation_dryrun _ _ _ _ hf2 hviol hmode]
      rfl
    · rw [vc_cpu_violation_enforce _ _ _ _ hf1 hviol hmode,
          vc_cpu_violation_enforce _ _ _ _ hf2 hviol hmode]
      rfl
  · intro hviol hmode
    rw [vc_cpu_violation_enforce _ _ _ _
      (findActiveBudget_singleton _ _ hteam) hviol hmode]
  · intro hok hmem
    exact vc_no_cpu_viol_no_mem _ _ _ _
      (findActiveBudget_singleton _ _ hteam) hok hmem

/-- Claim C6 witness: at a concrete CPU violation the result is the same whether
the (also violated) memory limit is "1Ki" or absent, and the deny message
is the CPU one; with no memory limit and CPU within limit the pod is
allowed. -/
theorem c6_witness :
    ValidateCreate (ListResult.ok [setMem ⟨"b", ⟨"t", "5m", "", "Enforce"⟩⟩
        "1Ki"]) (ListResult.ok [])
      ⟨"p", "t", [], [⟨some 7, some 2000⟩], PodPhase.Pending⟩ =
    ValidateCreate (ListResult.ok [setMem ⟨"b", ⟨"t", "5m", "", "Enforce"⟩⟩
        ""]) (ListResult.ok [])
      ⟨"p", "t", [], [⟨some 7, some 2000⟩], PodPhase.Pending⟩ ∧
    (ValidateCreate (ListResult.ok [⟨"b", ⟨"t", "5m", "", "Enforce"⟩⟩])
        (ListResult.ok [])
        ⟨"p", "t", [], [⟨some 7, some 2000⟩], PodPhase.Pending⟩).decision =
      Decision.deny (cpuViolationMsg ("t") 0 5 7) :=
  ⟨(c6_cpu_before_memory ⟨"b", ⟨"t", "5m", "", "Enforce"⟩⟩ []
      ⟨"p", "t", [], [⟨some 7, some 2000⟩], PodPhase.Pending⟩
      (by decide)).1 (by decide) "1Ki" "",
   (c6_cpu_before_memory ⟨"b", ⟨"t", "5m", "", "Enforce"⟩⟩ []
      ⟨"p", "t", [], [⟨some 7, some 2000⟩], PodPhase.Pending⟩
      (by decide)).2.1 (by decide) (by decide)⟩



/-- Claim C9: for an opted-in pod with a resolved budget, a parseable CPU limit
and positive remaining budget, if the CPU ceiling of the FIRST container
exceeds the remaining budget the Auto-Sizer overwrites it with exactly the
remainder and marks the pod with the resized=true annotation; if it is at
most the remainder the pod is returned unmodified; in all cases the
first-container CPU ceiling of the output does not exceed the remainder. -/
theorem c9_autosizer_clamps_first_container (items : List ProjectBudget)
    (pods : List Pod) (pod : Pod) (b : ProjectBudget) (qc : Quantity)
    (c : Container) (rest : List Container)
    (hann : getAnn pod.annotations autoResizeKey = "true")
    (hfind : findActiveBudget items pod.ns = some b)
    (hq : ParseQuantity b.spec.maxCpuLimit = some qc)
    (hrem : 0 < qc.MilliValue - (usageLoop pods).1)
    (hc : pod.containers = c :: rest) :
    (qc.MilliValue - (usageLoop pods).1 < c.cpuLimitMilli.getD 0 →
      Default (ListResult.ok items) (ListResult.ok pods) pod =
        ⟨{ pod with
            containers :=
              ⟨some (qc.MilliValue - (usageLoop pods).1),
                c.memLimitBytes⟩ :: rest,
            annotations := setAnn pod.annotations resizedKey ("true") },
         [⟨b.name, "Normal", "PodAutoSized",
           "Auto-Sized Pod CPU from " ++
           toString (c.cpuLimitMilli.getD 0) ++ "m to " ++
           toString (qc.MilliValue - (usageLoop pods).1) ++
           "m to fit budget"⟩]⟩ ∧
      getAnn (Default (ListResult.ok items) (ListResult.ok pods)
          pod).pod.annotations resizedKey = "true") ∧
    (c.cpuLimitMilli.getD 0 ≤ qc.MilliValue - (usageLoop pods).1 →
      Default (ListResult.ok items) (ListResult.ok pods) pod =
        ⟨pod, []⟩) ∧
    ((Default (ListResult.ok items) (ListResult.ok pods)
        pod).pod.containers.head?.map
          (fun c0 => c0.cpuLimitMilli.getD 0)).getD 0 ≤
      qc.MilliValue - (usageLoop pods).1 := by
  refine ⟨?_, ?_, ?_⟩
  · intro hgt
    have hd := default_clamp items pods pod b qc c rest hann hfind hq hrem
      hc hgt
    refine ⟨hd, ?_⟩
    rw [hd]
    exact getAnn_setAnn pod.annotations resizedKey ("true")
  · intro hle
    exact default_no_clamp items pods pod b qc c rest hann hfind hq hrem
      hc hle
  · rcases lt_or_le (qc.MilliValue - (usageLoop pods).1)
      (c.cpuLimitMilli.getD 0) with hgt | hle
    · rw [default_clamp items pods pod b qc c rest hann hfind hq hrem
        hc hgt]
      simp
    · rw [default_no_clamp items pods pod b qc c rest hann hfind hq hrem
        hc hle]
      simpa [hc] using hle

/-- Claim C9 witness: a concrete opted-in pod requesting 400m against a 500m
budget with 300m used is clamped to 200m and marked resized; a pod
requesting 150m is returned unchanged; both outputs stay within the
remaining 200m. -/
theorem c9_witness :
    Default (ListResult.ok [⟨"b", ⟨"t", "500m", "", "Enforce"⟩⟩])
      (ListResult.ok [⟨"q", "t", [], [⟨some 300, none⟩],
        PodPhase.Running⟩])
      ⟨"p", "t", [("finops.acasa.acme/auto-resize", "true")],
        [⟨some 400, none⟩], PodPhase.Pending⟩ =
      ⟨⟨"p", "t",
         [("finops.acasa.acme/auto-resize", "true"),
          ("finops.acasa.acme/resized", "true")],
         [⟨some 200, none⟩], PodPhase.Pending⟩,
       [⟨"b", "Normal", "PodAutoSized",
         "Auto-Sized Pod CPU from 400m to 200m to fit budget"⟩]⟩ :=
  ((c9_autosizer_clamps_first_container
      [⟨"b", ⟨"t", "500m", "", "Enforce"⟩⟩]
      [⟨"q", "t", [], [⟨some 300, none⟩], PodPhase.Running⟩]
      ⟨"p", "t", [("finops.acasa.acme/auto-resize", "true")],
        [⟨some 400, none⟩], PodPhase.Pending⟩
      ⟨"b", ⟨"t", "500m", "", "Enforce"⟩⟩ ⟨500⟩ ⟨some 400, none⟩ []
      (by decide) (by decide) (by decide) (by decide) (by decide)).1
    (by decide)).1

/-- Claim C10: any validationMode other than the literal DryRun — the empty
string, Enforce, or an arbitrary unknown string — behaves exactly as
Enforce: the whole admission result coincides with the Enforce-mode one,
and a CPU violation is denied. -/
theorem c10_non_dryrun_behaves_as_enforce (b : ProjectBudget) (m : String)
    (eps : ListResult Pod) (pod : Pod) (hm : m ≠ DryRunMode) :
    ValidateCreate (ListResult.ok [setMode b m]) eps pod =
      ValidateCreate (ListResult.ok [setMode b EnforceMode]) eps pod ∧
    (∀ pods, eps = ListResult.ok pods →
      effCpuLimit b < (usageLoop pods).1 + podCpuCost pod →
      b.spec.teamName = pod.ns →
      (ValidateCreate (ListResult.ok [setMode b m]) eps pod).decision =
        Decision.deny (cpuViolationMsg pod.ns (usageLoop pods).1
          (effCpuLimit b) (podCpuCost pod))) := by
  constructor
  · by_cases hteam : b.spec.teamName = pod.ns
    · have hf1 : findActiveBudget [setMode b m] pod.ns =
          some (setMode b m) := findActiveBudget_singleton _ _ hteam
      have hf2 : findActiveBudget [setMode b EnforceMode] pod.ns =
          some (setMode b EnforceMode) :=
        findActiveBudget_singleton _ _ hteam
      cases eps with
      | err => simp only [ValidateCreate, hf1, hf2]
      | ok pods =>
        rcases lt_or_le (effCpuLimit b)
          ((usageLoop pods).1 + podCpuCost pod) with hv | hv
        · rw [vc_cpu_violation_enforce _ _ _ _ hf1 hv hm,
              vc_cpu_violation_enforce _ _ _ _ hf2 hv
                (show EnforceMode ≠ DryRunMode by decide)]
          rfl
        · by_cases hmem : b.spec.maxMemoryLimit = ""
          · rw [vc_no_cpu_viol_no_mem _ _ _ _ hf1 hv hmem,
                vc_no_cpu_viol_no_mem _ _ _ _ hf2 hv hmem]
          · cases hpq : ParseQuantity b.spec.maxMemoryLimit with
            | none =>
              rw [vc_no_cpu_viol_mem_parse_fail _ _ _ _ hf1 hv hmem hpq,
                  vc_no_cpu_viol_mem_parse_fail _ _ _ _ hf2 hv hmem hpq]
            | some qm =>
              rcases lt_or_le qm.Value
                ((usageLoop pods).2 + podMemCost pod) with hmv | hmv
              · rw [vc_mem_violation_enforce _ _ _ _ _ hf1 hv hpq hmv hm,
                    vc_mem_violation_enforce _ _ _ _ _ hf2 hv hpq hmv
                      (show EnforceMode ≠ DryRunMode by decide)]
                rfl
              · rw [vc_no_cpu_viol_mem_ok _ _ _ _ _ hf1 hv hpq hmv,
                    vc_no_cpu_viol_mem_ok _ _ _ _ _ hf2 hv hpq hmv]
    · have hf1 : findActiveBudget [setMode b m] pod.ns = none :=
        findActiveBudget_none _ _ (by
          intro x hx
          simp only [List.mem_singleton] at hx
          subst hx
          exact hteam)
      have hf2 : findActiveBudget [setMode b EnforceMode] pod.ns = none :=
        findActiveBudget_none _ _ (by
          intro x hx
          simp only [List.mem_singleton] at hx
          subst hx
          exact hteam)
      simp only [ValidateCreate, hf1, hf2]
  · rintro pods rfl hv hteam
    rw [vc_cpu_violation_enforce [setMode b m] pods pod (setMode b m)
      (findActiveBudget_singleton (setMode b m) pod.ns hteam) hv hm]
    rfl

/-- Claim C10 witness: a concrete budget whose mode is the unknown string
"Observe" produces exactly the Enforce-mode result and denies a concrete
CPU violation. -/
theorem c10_witness :
    ValidateCreate (ListResult.ok [setMode ⟨"b", ⟨"t", "5m", "", "DryRun"⟩⟩
        "Observe"]) (ListResult.ok [])
      ⟨"p", "t", [], [⟨some 7, none⟩], PodPhase.Pending⟩ =
    ValidateCreate (ListResult.ok [setMode ⟨"b", ⟨"t", "5m", "", "DryRun"⟩⟩
        EnforceMode]) (ListResult.ok [])
      ⟨"p", "t", [], [⟨some 7, none⟩], PodPhase.Pending⟩ ∧
    (ValidateCreate (ListResult.ok [setMode ⟨"b", ⟨"t", "5m", "", "DryRun"⟩⟩
        "Observe"]) (ListResult.ok [])
      ⟨"p", "t", [], [⟨some 7, none⟩], PodPhase.Pending⟩).decision =
      Decision.deny (cpuViolationMsg ("t") 0 5 7) :=
  ⟨(c10_non_dryrun_behaves_as_enforce ⟨"b", ⟨"t", "5m", "", "DryRun"⟩⟩
      "Observe" (ListResult.ok [])
      ⟨"p", "t", [], [⟨some 7, none⟩], PodPhase.Pending⟩ (by decide)).1,
   (c10_non_dryrun_behaves_as_enforce ⟨"b", ⟨"t", "5m", "", "DryRun"⟩⟩
      "Observe" (ListResult.ok [])
      ⟨"p", "t", [], [⟨some 7, none⟩], PodPhase.Pending⟩ (by decide)).2
     [] rfl (by decide) (by decide)⟩
